import Mathlib

/-!
Shallow embedding of the wyrdledger offline-first sync core.

Source modules embedded here:
* `src/lib/config.ts` (`appConfig`) — configuration constants.
* `src/lib/offlineQueue.ts` — the durable operation queue
  (`getQueuedOperations`, `queueOperation`, `removeFromQueue`,
  `incrementRetryCount`, `shouldRetry`).
* `src/contexts/SyncContext.tsx` — the remote sync engine
  (`saveDataInternal`, `saveData`, `processQueue`, `sync`, `restore`,
  `resetAllData`).

Modelling conventions:
* Records and payloads are opaque JSON values in the source
  (`Record<string, unknown>[]`); they are abstracted as `List Rec` with
  `Rec := Nat`, since the sync core never inspects them.
* `crypto.randomUUID()` ids are abstracted as `OpId := Nat`; the source
  only compares ids for equality.
* `localStorage` for the queue is modelled as a `RawQueueStore` value:
  absent key, present-but-unparseable JSON, or a parsed operation list.
* Asynchronous functions that may reject are modelled as
  `Except String _`; a caught exception corresponds to matching on
  `Except.error` and continuing normally.
* Remote (Firestore) outcomes are oracles passed as parameters: `Bool`
  for a single batch commit, `String → List Rec → Bool` for
  per-collection writes, `Except String (List RemoteDoc)` for a
  collection read, `String → Bool` for per-document deletions.
* JavaScript truthiness tests on strings (`op.collection`,
  `data.items`) treat the empty string / absent field as falsy;
  `collectionTruthy` models this for collection names and `Option` for
  the rest.
-/

namespace WyrdLedger

/-- Opaque record payload (the source treats records as opaque JSON). -/
abbrev Rec := Nat

/-- Operation id; the source uses `crypto.randomUUID()` strings, compared
only for equality. -/
abbrev OpId := Nat

/-- `QueuedOperation.type` field: `"save" | "sync"`. -/
inductive OpType where
  | save
  | sync
deriving DecidableEq, Repr

/-- `appConfig` from `config.ts` (the fields the sync core reads). -/
structure AppConfig where
  maxQueueSize : Nat
  maxRetries : Nat
deriving Repr

def appConfig : AppConfig := { maxQueueSize := 50, maxRetries := 3 }

/-- `QueuedOperation` from `offlineQueue.ts`. -/
structure QueuedOperation where
  id : OpId
  type : OpType
  collection : Option String
  data : List Rec
  timestamp : Nat
  retryCount : Nat
deriving DecidableEq, Repr

/-- The raw persisted queue slot in `localStorage`: the key can be absent
(`getItem` returns `null`), present but not parseable JSON
(`JSON.parse` throws), or a parsed list of operations. -/
inductive RawQueueStore where
  | absent
  | garbage
  | stored (ops : List QueuedOperation)
deriving DecidableEq, Repr

/-- `getQueuedOperations`: returns `[]` when the key is absent, and a
`try/catch` turns a parse failure into `[]` as well. -/
def getQueuedOperations : RawQueueStore → List QueuedOperation
  | RawQueueStore.absent => []
  | RawQueueStore.garbage => []
  | RawQueueStore.stored ops => ops

/-- `queueOperation`: on the current operation list, evicts the oldest
entry (`operations.shift()`) when `length >= maxQueueSize`, then appends
the new operation with `retryCount = 0`. The generated id and timestamp
are passed in as parameters. -/
def queueOperation (operations : List QueuedOperation) (type : OpType)
    (collection : Option String) (data : List Rec)
    (newId : OpId) (newTs : Nat) : List QueuedOperation :=
  let operations :=
    if appConfig.maxQueueSize ≤ operations.length then operations.tail
    else operations
  operations ++ [{ id := newId, type := type, collection := collection,
                   data := data, timestamp := newTs, retryCount := 0 }]

/-- `removeFromQueue`: keeps the operations whose id differs. -/
def removeFromQueue (operations : List QueuedOperation) (id : OpId) :
    List QueuedOperation :=
  operations.filter (fun op => op.id ≠ id)

/-- `incrementRetryCount`: bumps `retryCount` of the matching entry. -/
def incrementRetryCount (operations : List QueuedOperation) (id : OpId) :
    List QueuedOperation :=
  operations.map (fun op =>
    if op.id = id then { op with retryCount := op.retryCount + 1 } else op)

/-- `shouldRetry`: `op.retryCount < appConfig.maxRetries`. -/
def shouldRetry (op : QueuedOperation) : Bool :=
  op.retryCount < appConfig.maxRetries

/-- Enqueue `n` operations in sequence starting from an empty queue; the
`i`-th enqueue gets id `i` (ids stand for the distinct generated UUIDs). -/
def enqueueSeq (n : Nat) : List QueuedOperation :=
  (List.range n).foldl
    (fun q i => queueOperation q OpType.save (some "products") [] i i) []

set_option maxRecDepth 10000 in
/-- Claim C1: every enqueue from a queue holding at most `maxQueueSize`
(50) entries leaves at most `maxQueueSize` entries; an enqueue at exactly
`maxQueueSize` evicts the oldest (head) entry and appends the new
operation at the tail; enqueueing 51 operations in sequence from an empty
queue leaves exactly 50 entries with the first-enqueued operation (id 0)
absent. -/
theorem queueOperation_bounded_fifo :
    (∀ (q : List QueuedOperation) t c d i ts,
        q.length ≤ appConfig.maxQueueSize →
        (queueOperation q t c d i ts).length ≤ appConfig.maxQueueSize)
    ∧ (∀ (q : List QueuedOperation) t c d i ts,
        q.length = appConfig.maxQueueSize →
        queueOperation q t c d i ts =
          q.tail ++ [{ id := i, type := t, collection := c, data := d,
                       timestamp := ts, retryCount := 0 }])
    ∧ (enqueueSeq 51).length = 50
    ∧ (∀ op ∈ enqueueSeq 51, op.id ≠ 0) := by
  refine ⟨?_, ?_, ?_, ?_⟩
  · intro q t c d i ts h
    have hm : appConfig.maxQueueSize = 50 := rfl
    rw [hm] at h ⊢
    simp only [queueOperation, hm, List.length_append, List.length_singleton]
    split
    · simp only [List.length_tail]
      omega
    · omega
  · intro q t c d i ts h
    simp [queueOperation, h]
  · decide
  · decide

/-- Witness for C1 at concrete inputs. -/
theorem queueOperation_bounded_fifo_witness :
    (queueOperation [] OpType.save (some "products") [] 0 0).length ≤
      appConfig.maxQueueSize
    ∧ queueOperation
        (List.replicate 50
          ({ id := 9, type := OpType.save, collection := none, data := [],
             timestamp := 0, retryCount := 0 } : QueuedOperation))
        OpType.save none [] 7 7 =
      (List.replicate 50
          ({ id := 9, type := OpType.save, collection := none, data := [],
             timestamp := 0, retryCount := 0 } : QueuedOperation)).tail ++
        [{ id := 7, type := OpType.save, collection := none, data := [],
           timestamp := 7, retryCount := 0 }] :=
  ⟨queueOperation_bounded_fifo.1 [] OpType.save (some "products") [] 0 0
      (by decide),
   queueOperation_bounded_fifo.2.1 _ OpType.save none [] 7 7 (by decide)⟩

/-- Claim C6: `shouldRetry op` is true iff `op.retryCount < maxRetries`,
and `maxRetries` is configured as 3. -/
theorem shouldRetry_iff_below_maxRetries (op : QueuedOperation) :
    (shouldRetry op = true ↔ op.retryCount < appConfig.maxRetries)
    ∧ appConfig.maxRetries = 3 := by
  constructor
  · simp [shouldRetry]
  · rfl

/-- Claim C7: removal is idempotent — after `removeFromQueue queue id` no
remaining operation carries `id`; removing an absent id is a no-op; the
remaining operations keep their relative order (sublist); and removing
the same id twice equals removing it once. -/
theorem removeFromQueue_idempotent_noop :
    (∀ (queue : List QueuedOperation) (id : OpId),
        ∀ op ∈ removeFromQueue queue id, op.id ≠ id)
    ∧ (∀ (queue : List QueuedOperation) (id : OpId),
        id ∉ queue.map (fun op => op.id) → removeFromQueue queue id = queue)
    ∧ (∀ (queue : List QueuedOperation) (id : OpId),
        (removeFromQueue queue id).Sublist queue)
    ∧ (∀ (queue : List QueuedOperation) (id : OpId),
        removeFromQueue (removeFromQueue queue id) id =
          removeFromQueue queue id) := by
  refine ⟨?_, ?_, ?_, ?_⟩
  · intro queue id op hop
    have := List.of_mem_filter hop
    simpa using this
  · intro queue id h
    apply List.filter_eq_self.mpr
    intro a ha
    simp only [decide_eq_true_eq]
    intro hEq
    exact h (List.mem_map.mpr ⟨a, ha, hEq⟩)
  · intro queue id
    exact List.filter_sublist queue
  · intro queue id
    apply List.filter_eq_self.mpr
    intro a ha
    simp only [removeFromQueue] at ha
    exact (List.mem_filter.mp ha).2

/-- Witness for C7 at concrete inputs. -/
theorem removeFromQueue_idempotent_noop_witness :
    ({ id := 2, type := OpType.save, collection := none, data := [],
       timestamp := 0, retryCount := 0 } : QueuedOperation).id ≠ 1
    ∧ removeFromQueue
        [{ id := 1, type := OpType.save, collection := none, data := [],
           timestamp := 0, retryCount := 0 }] 5 =
      [{ id := 1, type := OpType.save, collection := none, data := [],
         timestamp := 0, retryCount := 0 }] :=
  ⟨removeFromQueue_idempotent_noop.1
      [{ id := 1, type := OpType.save, collection := none, data := [],
         timestamp := 0, retryCount := 0 },
       { id := 2, type := OpType.save, collection := none, data := [],
         timestamp := 0, retryCount := 0 }] 1
      { id := 2, type := OpType.save, collection := none, data := [],
        timestamp := 0, retryCount := 0 } (by decide),
   removeFromQueue_idempotent_noop.2.1 _ 5 (by decide)⟩

/-- Claim C9: `getQueuedOperations` is total — it returns a list for every
state of the persisted queue slot, the empty list both when the key is
absent and when the stored value is not parseable JSON. -/
theorem getQueuedOperations_total :
    getQueuedOperations RawQueueStore.absent = []
    ∧ getQueuedOperations RawQueueStore.garbage = []
    ∧ ∀ ops, getQueuedOperations (RawQueueStore.stored ops) = ops :=
  ⟨rfl, rfl, fun _ => rfl⟩

/-! Remote sync engine (`SyncContext.tsx`). -/

/-- `STORAGE_KEYS` from `SyncContext.tsx`: collection name to
`localStorage` key, iterated with `Object.entries` in insertion order. -/
def STORAGE_KEYS : List (String × String) :=
  [("products", "wyrd-ledger-products"),
   ("customers", "wyrd-ledger-customers"),
   ("settings", "wyrd-ledger-settings"),
   ("bankAccounts", "wyrd-ledger-bank-accounts")]

/-- Whether a promise resolved (`Except.ok`) rather than rejected. -/
def resolves {α : Type} : Except String α → Bool
  | Except.ok _ => true
  | Except.error _ => false

/-- `saveDataInternal`: throws when `!db || !user`, else commits a single
batch write of `{items: data}` for the collection; the commit outcome
comes from the `remoteOk` oracle. Returns the performed write. -/
def saveDataInternal (hasDb hasUser : Bool)
    (remoteOk : String → List Rec → Bool)
    (collectionName : String) (data : List Rec) :
    Except String (String × List Rec) :=
  if !hasDb || !hasUser then
    Except.error "Cannot save: No database connection or user"
  else if remoteOk collectionName data then
    Except.ok (collectionName, data)
  else
    Except.error "batch commit failed"

/-- Observable effects of one `saveData` call. -/
structure SaveEffects where
  queue : List QueuedOperation
  writeAttempts : Nat
  remoteWrite : Option (String × List Rec)
  toastQueued : Bool
deriving DecidableEq, Repr

/-- `saveData`: with no db or no user it enqueues, toasts and returns;
otherwise it tries `saveDataInternal` once and catches any failure by
enqueueing and toasting. Every branch resolves (`Except.ok`). -/
def saveData (hasDb hasUser : Bool) (remoteOk : String → List Rec → Bool)
    (collectionName : String) (data : List Rec)
    (queue : List QueuedOperation) (newId : OpId) (newTs : Nat) :
    Except String SaveEffects :=
  if !hasDb || !hasUser then
    Except.ok { queue := queueOperation queue OpType.save
                  (some collectionName) data newId newTs,
                writeAttempts := 0, remoteWrite := none, toastQueued := true }
  else
    match saveDataInternal hasDb hasUser remoteOk collectionName data with
    | Except.ok w =>
        Except.ok { queue := queue, writeAttempts := 1,
                    remoteWrite := some w, toastQueued := false }
    | Except.error _ =>
        Except.ok { queue := queueOperation queue OpType.save
                      (some collectionName) data newId newTs,
                    writeAttempts := 1, remoteWrite := none,
                    toastQueued := true }

/-- A raw `localStorage` value read by `sync`: a JSON array, a single
JSON object, or unparseable text (`JSON.parse` throws). -/
inductive LocalVal where
  | arr (xs : List Rec)
  | single (x : Rec)
  | garbage
deriving DecidableEq, Repr

/-- `JSON.parse` plus the `Array.isArray(parsed) ? parsed : [parsed]`
wrapping in `sync`; `none` models a thrown parse error. -/
def parseItems : LocalVal → Option (List Rec)
  | LocalVal.arr xs => some xs
  | LocalVal.single x => some [x]
  | LocalVal.garbage => none

/-- The batched writes `sync` builds from local storage: one
`(collection, items)` pair per present local key, in `STORAGE_KEYS`
order; a parse error aborts the loop (thrown inside the `try`). -/
def collectSyncWrites (localStore : String → Option LocalVal) :
    Except String (List (String × List Rec)) :=
  STORAGE_KEYS.foldlM
    (fun ws kv =>
      match localStore kv.2 with
      | none => Except.ok ws
      | some v =>
        match parseItems v with
        | none => Except.error "JSON.parse failed"
        | some items => Except.ok (ws ++ [(kv.1, items)]))
    []

/-- Observable effects of one `sync` call: the committed batch (if the
commit happened and succeeded) and whether the failure toast was shown. -/
structure SyncEffects where
  batchWrites : Option (List (String × List Rec))
  failToast : Bool
deriving Repr

/-- `sync`: with no db or no user it toasts "Sync failed" and returns
normally; otherwise it builds the batch and commits once, catching any
failure (parse error or commit rejection) with a toast. Every branch
resolves (`Except.ok`): the source function has no `throw` and its
`catch` does not re-throw. -/
def sync (hasDb hasUser : Bool) (commitOk : Bool)
    (localStore : String → Option LocalVal) : Except String SyncEffects :=
  if !hasDb || !hasUser then
    Except.ok { batchWrites := none, failToast := true }
  else
    match collectSyncWrites localStore with
    | Except.error _ => Except.ok { batchWrites := none, failToast := true }
    | Except.ok ws =>
      if commitOk then
        Except.ok { batchWrites := some ws, failToast := false }
      else
        Except.ok { batchWrites := none, failToast := true }

/-- One document of the principal's remote `data` sub-collection:
`id` is the document id, `items` is the `items` field (`none` when the
field is absent or falsy, skipped by `restore`). -/
structure RemoteDoc where
  id : String
  items : Option (List Rec)
deriving DecidableEq, Repr

/-- `STORAGE_KEYS[key]` lookup used by `restore`. -/
def storageKeyFor (id : String) : Option String :=
  STORAGE_KEYS.lookup id

/-- One iteration of `snapshot.forEach` in `restore`: write the remote
`items` under the mapped local-storage key, or leave the store untouched
when the id has no mapping or the document has no `items`. -/
def restoreApplyDoc (store : String → Option (List Rec)) (d : RemoteDoc) :
    String → Option (List Rec) :=
  match storageKeyFor d.id with
  | none => store
  | some storageKey =>
    match d.items with
    | none => store
    | some items => fun k => if k = storageKey then some items else store k

/-- `restore`: throws "Not connected to cloud" when `!db || !user`;
re-throws any remote read failure after toasting; on success folds every
remote document into local storage and reloads the page (the `Bool` in
the result marks `window.location.reload`). -/
def restore (hasDb hasUser : Bool)
    (fetch : Except String (List RemoteDoc))
    (store : String → Option (List Rec)) :
    Except String ((String → Option (List Rec)) × Bool) :=
  if !hasDb || !hasUser then Except.error "Not connected to cloud"
  else
    match fetch with
    | Except.error e => Except.error e
    | Except.ok docs => Except.ok (docs.foldl restoreApplyDoc store, true)

/-- `resetAllData`: throws when `!db || !user`; reads every document of
the principal's `data` sub-collection and deletes each; `Promise.all`
rejects (re-thrown) when any deletion fails. Returns the deleted ids. -/
def resetAllData (hasDb hasUser : Bool)
    (fetch : Except String (List RemoteDoc))
    (deleteOk : String → Bool) : Except String (List String) :=
  if !hasDb || !hasUser then
    Except.error "Cannot reset: No database connection or user"
  else
    match fetch with
    | Except.error e => Except.error e
    | Except.ok docs =>
      if docs.all (fun d => deleteOk d.id) then
        Except.ok (docs.map (fun d => d.id))
      else
        Except.error "deleteDoc failed"

/-- A remote document actually writes local key `k` during `restore`:
its id maps to `k` and it carries an `items` field. -/
def docTouches (d : RemoteDoc) (k : String) : Prop :=
  storageKeyFor d.id = some k ∧ d.items.isSome = true

instance (d : RemoteDoc) (k : String) : Decidable (docTouches d k) :=
  inferInstanceAs (Decidable (_ ∧ _))

theorem restoreApplyDoc_frame (store : String → Option (List Rec))
    (d : RemoteDoc) (k : String) (h : ¬ docTouches d k) :
    restoreApplyDoc store d k = store k := by
  unfold restoreApplyDoc
  rcases hsk : storageKeyFor d.id with _ | sk
  · rfl
  · rcases hit : d.items with _ | items
    · rfl
    · by_cases hk : k = sk
      · refine absurd ⟨?_, ?_⟩ h
        · rw [hk]; exact hsk
        · rw [hit]; rfl
      · simp [hk]

theorem restore_foldl_frame (docs : List RemoteDoc) (k : String) :
    ∀ store : String → Option (List Rec),
    (∀ d ∈ docs, ¬ docTouches d k) →
    (docs.foldl restoreApplyDoc store) k = store k := by
  induction docs with
  | nil => intro store _; rfl
  | cons d rest ih =>
    intro store h
    simp only [List.foldl_cons]
    rw [ih _ fun d' hd' => h d' (List.mem_cons_of_mem _ hd')]
    exact restoreApplyDoc_frame store d k (h d (List.mem_cons_self d rest))

theorem storageKeyFor_cases (a sk : String)
    (h : storageKeyFor a = some sk) :
    (a = "products" ∧ sk = "wyrd-ledger-products")
    ∨ (a = "customers" ∧ sk = "wyrd-ledger-customers")
    ∨ (a = "settings" ∧ sk = "wyrd-ledger-settings")
    ∨ (a = "bankAccounts" ∧ sk = "wyrd-ledger-bank-accounts") := by
  by_cases h1 : a = "products"
  · subst h1
    rw [show storageKeyFor "products" = some "wyrd-ledger-products" from rfl]
      at h
    injection h with h
    exact Or.inl ⟨rfl, h.symm⟩
  by_cases h2 : a = "customers"
  · subst h2
    rw [show storageKeyFor "customers" = some "wyrd-ledger-customers"
          from rfl] at h
    injection h with h
    exact Or.inr (Or.inl ⟨rfl, h.symm⟩)
  by_cases h3 : a = "settings"
  · subst h3
    rw [show storageKeyFor "settings" = some "wyrd-ledger-settings"
          from rfl] at h
    injection h with h
    exact Or.inr (Or.inr (Or.inl ⟨rfl, h.symm⟩))
  by_cases h4 : a = "bankAccounts"
  · subst h4
    rw [show storageKeyFor "bankAccounts" = some "wyrd-ledger-bank-accounts"
          from rfl] at h
    injection h with h
    exact Or.inr (Or.inr (Or.inr ⟨rfl, h.symm⟩))
  · exfalso
    have e1 : (a == "products") = false := beq_eq_false_iff_ne.mpr h1
    have e2 : (a == "customers") = false := beq_eq_false_iff_ne.mpr h2
    have e3 : (a == "settings") = false := beq_eq_false_iff_ne.mpr h3
    have e4 : (a == "bankAccounts") = false := beq_eq_false_iff_ne.mpr h4
    simp [storageKeyFor, STORAGE_KEYS, List.lookup, e1, e2, e3, e4] at h

theorem storageKeyFor_inj (a b sk : String)
    (ha : storageKeyFor a = some sk) (hb : storageKeyFor b = some sk) :
    a = b := by
  rcases storageKeyFor_cases a sk ha with ⟨ha1, ha2⟩ | ⟨ha1, ha2⟩ |
    ⟨ha1, ha2⟩ | ⟨ha1, ha2⟩ <;>
    rcases storageKeyFor_cases b sk hb with ⟨hb1, hb2⟩ | ⟨hb1, hb2⟩ |
      ⟨hb1, hb2⟩ | ⟨hb1, hb2⟩ <;>
    simp_all

theorem restore_foldl_write (docs : List RemoteDoc)
    (hnd : (docs.map (fun d => d.id)).Nodup) (d : RemoteDoc) (hd : d ∈ docs)
    (sk : String) (hsk : storageKeyFor d.id = some sk)
    (items : List Rec) (hit : d.items = some items) :
    ∀ store : String → Option (List Rec),
    (docs.foldl restoreApplyDoc store) sk = some items := by
  induction docs with
  | nil => cases hd
  | cons a rest ih =>
    intro store
    simp only [List.map_cons, List.nodup_cons] at hnd
    simp only [List.foldl_cons]
    rcases List.mem_cons.mp hd with rfl | hmem
    · have hrest : ∀ d' ∈ rest, ¬ docTouches d' sk := by
        rintro d' hd' ⟨hsk', _⟩
        have hid : d'.id = d.id := storageKeyFor_inj _ _ _ hsk' hsk
        exact hnd.1 (hid ▸ List.mem_map_of_mem (fun x => x.id) hd')
      rw [restore_foldl_frame rest sk _ hrest]
      unfold restoreApplyDoc
      rw [hsk, hit]
      simp
    · exact ih hnd.2 hmem (restoreApplyDoc store a)

/-- Claim C8: when `restore` runs with a connection and principal and the
remote read yields `docs` (with the Firestore-guaranteed distinct ids),
it resolves and the final local store (1) holds the remote `items` under
the mapped storage key for every document whose id maps to a known key
and which carries an `items` field, and (2) is unchanged at every key no
document writes — in particular ids with no mapping are ignored and
collections with no remote partition keep their local value. -/
theorem restore_overwrites_mapped_partitions
    (docs : List RemoteDoc) (store : String → Option (List Rec))
    (hnd : (docs.map (fun d => d.id)).Nodup) :
    restore true true (Except.ok docs) store =
      Except.ok (docs.foldl restoreApplyDoc store, true)
    ∧ (∀ d ∈ docs, ∀ sk, storageKeyFor d.id = some sk →
        ∀ items, d.items = some items →
        (docs.foldl restoreApplyDoc store) sk = some items)
    ∧ (∀ k, (∀ d ∈ docs, ¬ docTouches d k) →
        (docs.foldl restoreApplyDoc store) k = store k) := by
  refine ⟨rfl, ?_, ?_⟩
  · intro d hd sk hsk items hit
    exact restore_foldl_write docs hnd d hd sk hsk items hit store
  · intro k hk
    exact restore_foldl_frame docs k store hk

/-- Witness for C8: two remote documents, one mapped (`products`), one
unmapped (`mystery`); the mapped one overwrites its storage key, the
pre-existing `customers` value survives untouched. -/
theorem restore_overwrites_mapped_partitions_witness :
    ((([{ id := "products", items := some [1, 2] },
        { id := "mystery", items := some [3] }] :
          List RemoteDoc).foldl restoreApplyDoc
        (fun k => if k = "wyrd-ledger-customers" then some [9] else none))
      "wyrd-ledger-products" = some [1, 2])
    ∧ ((([{ id := "products", items := some [1, 2] },
        { id := "mystery", items := some [3] }] :
          List RemoteDoc).foldl restoreApplyDoc
        (fun k => if k = "wyrd-ledger-customers" then some [9] else none))
      "wyrd-ledger-customers" =
        (fun k => if k = "wyrd-ledger-customers" then some [9] else none)
          "wyrd-ledger-customers") :=
  ⟨(restore_overwrites_mapped_partitions
      [{ id := "products", items := some [1, 2] },
       { id := "mystery", items := some [3] }]
      (fun k => if k = "wyrd-ledger-customers" then some [9] else none)
      (by decide)).2.1
      { id := "products", items := some [1, 2] } (by decide)
      "wyrd-ledger-products" (by decide) [1, 2] rfl,
   (restore_overwrites_mapped_partitions
      [{ id := "products", items := some [1, 2] },
       { id := "mystery", items := some [3] }]
      (fun k => if k = "wyrd-ledger-customers" then some [9] else none)
      (by decide)).2.2
      "wyrd-ledger-customers" (by decide)⟩

/-- Claim C2 counterexample: with a database connection and principal
present but the remote batch commit failing, `sync` resolves normally
(its `catch` only toasts and does not re-throw), contradicting the claim
that each of `sync`, `restore`, `resetAllData` rejects on failure. -/
theorem sync_resolves_on_commit_failure :
    resolves (sync true true false (fun _ => none)) = true := rfl

/-- Claim C2 amended: `restore` and `resetAllData` propagate every
failure as a rejection — absent connection or principal, a failed remote
read, and a failed deletion each reject — while `sync` absorbs all its
failures (surfacing them via the notification toast) and always resolves
normally. -/
theorem explicit_actions_failure_propagation :
    (∀ hasDb hasUser commitOk localStore,
        resolves (sync hasDb hasUser commitOk localStore) = true)
    ∧ (∀ hasDb hasUser fetch store, (hasDb = false ∨ hasUser = false) →
        resolves (restore hasDb hasUser fetch store) = false)
    ∧ (∀ e store, resolves (restore true true (Except.error e) store) = false)
    ∧ (∀ hasDb hasUser fetch deleteOk,
        (hasDb = false ∨ hasUser = false) →
        resolves (resetAllData hasDb hasUser fetch deleteOk) = false)
    ∧ (∀ e deleteOk,
        resolves (resetAllData true true (Except.error e) deleteOk) = false)
    ∧ (∀ docs deleteOk, docs.all (fun d => deleteOk d.id) = false →
        resolves (resetAllData true true (Except.ok docs) deleteOk) = false)
    := by
  refine ⟨?_, ?_, ?_, ?_, ?_, ?_⟩
  · intro hasDb hasUser commitOk localStore
    cases hasDb <;> cases hasUser <;>
      simp only [sync, Bool.not_true, Bool.not_false, Bool.false_or,
        Bool.or_false, Bool.true_or, Bool.or_true, if_true, if_false,
        ite_true, ite_false, resolves]
    rcases collectSyncWrites localStore with _ | ws <;>
      cases commitOk <;> simp [resolves]
  · rintro hasDb hasUser fetch store (rfl | rfl) <;>
      simp [restore, resolves]
  · intro e store
    simp [restore, resolves]
  · rintro hasDb hasUser fetch deleteOk (rfl | rfl) <;>
      simp [resetAllData, resolves]
  · intro e deleteOk
    simp [resetAllData, resolves]
  · intro docs deleteOk h
    simp [resetAllData, h, resolves]

/-- Witness for the amended C2 at concrete inputs. -/
theorem explicit_actions_failure_propagation_witness :
    resolves (sync true true true (fun _ => none)) = true
    ∧ resolves (restore false false (Except.ok []) (fun _ => none)) = false
    ∧ resolves (restore true true (Except.error "net") (fun _ => none)) =
        false
    ∧ resolves (resetAllData false false (Except.ok []) (fun _ => true)) =
        false
    ∧ resolves (resetAllData true true (Except.error "net") (fun _ => true)) =
        false
    ∧ resolves (resetAllData true true
        (Except.ok [{ id := "products", items := none }]) (fun _ => false)) =
        false :=
  ⟨explicit_actions_failure_propagation.1 true true true (fun _ => none),
   explicit_actions_failure_propagation.2.1 false false (Except.ok [])
     (fun _ => none) (Or.inl rfl),
   explicit_actions_failure_propagation.2.2.1 "net" (fun _ => none),
   explicit_actions_failure_propagation.2.2.2.1 false false (Except.ok [])
     (fun _ => true) (Or.inl rfl),
   explicit_actions_failure_propagation.2.2.2.2.1 "net" (fun _ => true),
   explicit_actions_failure_propagation.2.2.2.2.2
     [{ id := "products", items := none }] (fun _ => false) (by decide)⟩

/-- Claim C3: `saveData` never rejects and makes at most one remote write
attempt; when there is no connection or principal, or when the single
write attempt fails, it enqueues exactly one `QueuedOperation` carrying
the collection name and payload (appended at the tail) and shows the
"queued" toast. -/
theorem saveData_never_rejects (hasDb hasUser : Bool)
    (remoteOk : String → List Rec → Bool) (name : String) (data : List Rec)
    (queue : List QueuedOperation) (newId : OpId) (newTs : Nat) :
    resolves (saveData hasDb hasUser remoteOk name data queue newId newTs) =
      true
    ∧ (∀ eff,
        saveData hasDb hasUser remoteOk name data queue newId newTs =
          Except.ok eff → eff.writeAttempts ≤ 1)
    ∧ ((hasDb = false ∨ hasUser = false) →
        saveData hasDb hasUser remoteOk name data queue newId newTs =
          Except.ok
            { queue := queueOperation queue OpType.save (some name) data
                newId newTs,
              writeAttempts := 0, remoteWrite := none, toastQueued := true })
    ∧ (hasDb = true → hasUser = true → remoteOk name data = false →
        saveData hasDb hasUser remoteOk name data queue newId newTs =
          Except.ok
            { queue := queueOperation queue OpType.save (some name) data
                newId newTs,
              writeAttempts := 1, remoteWrite := none, toastQueued := true })
    ∧ (queueOperation queue OpType.save (some name) data newId newTs).getLast?
        = some { id := newId, type := OpType.save, collection := some name,
                 data := data, timestamp := newTs, retryCount := 0 } := by
  refine ⟨?_, ?_, ?_, ?_, ?_⟩
  · cases hasDb <;> cases hasUser <;>
      rcases h : remoteOk name data <;>
      simp [saveData, saveDataInternal, resolves, h]
  · intro eff heq
    cases hasDb <;> cases hasUser <;>
      rcases h : remoteOk name data <;>
      simp [saveData, saveDataInternal, h] at heq <;>
      simp [← heq]
  · rintro (rfl | rfl)
    · simp [saveData]
    · cases hasDb <;> simp [saveData]
  · rintro rfl rfl h
    simp [saveData, saveDataInternal, h]
  · simp only [queueOperation]
    exact List.getLast?_concat _

/-- Witness for C3 at concrete inputs. -/
theorem saveData_never_rejects_witness :
    (∀ eff,
        saveData false true (fun _ _ => true) "products" [1] [] 3 4 =
          Except.ok eff → eff.writeAttempts ≤ 1)
    ∧ saveData false true (fun _ _ => true) "products" [1] [] 3 4 =
        Except.ok
          { queue := queueOperation [] OpType.save (some "products") [1] 3 4,
            writeAttempts := 0, remoteWrite := none, toastQueued := true }
    ∧ saveData true true (fun _ _ => false) "products" [1] [] 3 4 =
        Except.ok
          { queue := queueOperation [] OpType.save (some "products") [1] 3 4,
            writeAttempts := 1, remoteWrite := none, toastQueued := true } :=
  ⟨(saveData_never_rejects false true (fun _ _ => true) "products" [1] []
      3 4).2.1,
   (saveData_never_rejects false true (fun _ _ => true) "products" [1] []
      3 4).2.2.1 (Or.inl rfl),
   (saveData_never_rejects true true (fun _ _ => false) "products" [1] []
      3 4).2.2.2.1 rfl rfl rfl⟩

/-! Queue draining (`processQueue` in `SyncContext.tsx`). -/

/-- JavaScript truthiness of `op.collection` in
`op.type === "save" && op.collection` (absent or empty string falsy). -/
def collectionTruthy : Option String → Bool
  | none => false
  | some s => !(s == "")

/-- The drain's replay condition for one operation: retry budget left,
`"save"` kind, truthy collection name. -/
def attemptedB (op : QueuedOperation) : Bool :=
  shouldRetry op && (op.type == OpType.save) && collectionTruthy op.collection

/-- Whether the replay write for `op` succeeds under the write oracle. -/
def attemptSucceeds (attempt : String → List Rec → Bool)
    (op : QueuedOperation) : Bool :=
  match op.collection with
  | some c => attempt c op.data
  | none => false

/-- The `for (const op of operations)` loop of `processQueue`: `pending`
is the snapshot being iterated, `store` the live persisted queue, `succ`
the success counter, `att` the ids replayed so far (in order). -/
def drainLoop (attempt : String → List Rec → Bool)
    (pending : List QueuedOperation) (store : List QueuedOperation)
    (succ : Nat) (att : List OpId) :
    List QueuedOperation × Nat × List OpId :=
  match pending with
  | [] => (store, succ, att)
  | op :: rest =>
    if !(shouldRetry op) then
      drainLoop attempt rest (removeFromQueue store op.id) succ att
    else
      match op.type, op.collection with
      | OpType.save, some c =>
        if c == "" then
          drainLoop attempt rest store succ att
        else if attempt c op.data then
          drainLoop attempt rest (removeFromQueue store op.id) (succ + 1)
            (att ++ [op.id])
        else
          drainLoop attempt rest (incrementRetryCount store op.id) succ
            (att ++ [op.id])
      | _, _ => drainLoop attempt rest store succ att

/-- Observable effects of one `processQueue` call. -/
structure DrainEffects where
  queue : List QueuedOperation
  successCount : Nat
  attempts : List OpId
  isProcessingAfter : Bool
deriving DecidableEq, Repr

/-- `processQueue`: returns immediately when there is no db, no user, or
a drain is already in flight (`isProcessingQueue.current`), or when the
queue is empty; otherwise it iterates the snapshot once and clears the
in-flight flag. Replay success is `saveDataInternal` resolving. -/
def processQueue (hasDb hasUser isProcessing : Bool)
    (remoteOk : String → List Rec → Bool)
    (queue : List QueuedOperation) : DrainEffects :=
  if !hasDb || !hasUser || isProcessing then
    { queue := queue, successCount := 0, attempts := [],
      isProcessingAfter := isProcessing }
  else if queue.length = 0 then
    { queue := queue, successCount := 0, attempts := [],
      isProcessingAfter := isProcessing }
  else
    let r := drainLoop
      (fun c d => resolves (saveDataInternal hasDb hasUser remoteOk c d))
      queue queue 0 []
    { queue := r.1, successCount := r.2.1, attempts := r.2.2,
      isProcessingAfter := false }

/-- What one drain pass does to a single queue entry: dropped when the
retry budget is exhausted, removed on successful replay, retry count
bumped on failed replay, untouched otherwise. -/
def drainStepSpec (attempt : String → List Rec → Bool)
    (op : QueuedOperation) : Option QueuedOperation :=
  if !(shouldRetry op) then none
  else
    match op.type, op.collection with
    | OpType.save, some c =>
      if c == "" then some op
      else if attempt c op.data then none
      else some { op with retryCount := op.retryCount + 1 }
    | _, _ => some op

theorem removeFromQueue_of_not_mem (l : List QueuedOperation) (i : OpId)
    (h : ∀ p ∈ l, p.id ≠ i) : removeFromQueue l i = l := by
  apply List.filter_eq_self.mpr
  intro a ha
  simpa using h a ha

theorem removeFromQueue_append (l1 l2 : List QueuedOperation) (i : OpId) :
    removeFromQueue (l1 ++ l2) i =
      removeFromQueue l1 i ++ removeFromQueue l2 i := by
  simp [removeFromQueue, List.filter_append]

theorem removeFromQueue_cons_self (l : List QueuedOperation)
    (op : QueuedOperation) :
    removeFromQueue (op :: l) op.id = removeFromQueue l op.id := by
  simp [removeFromQueue, List.filter_cons]

theorem incrementRetryCount_of_not_mem (l : List QueuedOperation)
    (i : OpId) (h : ∀ p ∈ l, p.id ≠ i) : incrementRetryCount l i = l := by
  induction l with
  | nil => rfl
  | cons a t ih =>
    have ha : a.id ≠ i := h a (List.mem_cons_self a t)
    have ht := ih fun p hp => h p (List.mem_cons_of_mem _ hp)
    simp only [incrementRetryCount, List.map_cons, if_neg ha]
    simp only [incrementRetryCount] at ht
    rw [ht]

theorem incrementRetryCount_append (l1 l2 : List QueuedOperation)
    (i : OpId) :
    incrementRetryCount (l1 ++ l2) i =
      incrementRetryCount l1 i ++ incrementRetryCount l2 i := by
  simp [incrementRetryCount, List.map_append]

theorem incrementRetryCount_cons_self (l : List QueuedOperation)
    (op : QueuedOperation) :
    incrementRetryCount (op :: l) op.id =
      { op with retryCount := op.retryCount + 1 } ::
        incrementRetryCount l op.id := by
  simp [incrementRetryCount]

theorem drainLoop_spec (attempt : String → List Rec → Bool) :
    ∀ (pending done : List QueuedOperation) (succ : Nat) (att : List OpId),
    (∀ p ∈ done, ∀ q ∈ pending, p.id ≠ q.id) →
    (pending.map (fun op => op.id)).Nodup →
    drainLoop attempt pending (done ++ pending) succ att =
      (done ++ pending.filterMap (drainStepSpec attempt),
       succ + (pending.filter
         (fun op => attemptedB op && attemptSucceeds attempt op)).length,
       att ++ (pending.filter attemptedB).map (fun op => op.id)) := by
  intro pending
  induction pending with
  | nil =>
    intro done succ att _ _
    simp [drainLoop]
  | cons op rest ih =>
    intro done succ att hdisj hnd
    simp only [List.map_cons, List.nodup_cons] at hnd
    have hdone_op : ∀ p ∈ done, p.id ≠ op.id :=
      fun p hp => hdisj p hp op (List.mem_cons_self op rest)
    have hrest_op : ∀ p ∈ rest, p.id ≠ op.id := by
      intro p hp heq
      exact hnd.1 (heq ▸ List.mem_map_of_mem (fun x => x.id) hp)
    have hdisj' : ∀ p ∈ done, ∀ q ∈ rest, p.id ≠ q.id :=
      fun p hp q hq => hdisj p hp q (List.mem_cons_of_mem _ hq)
    have hdisjskip : ∀ p ∈ done ++ [op], ∀ q ∈ rest, p.id ≠ q.id := by
      intro p hp q hq
      rcases List.mem_append.mp hp with h | h
      · exact hdisj' p h q hq
      · have hpo : p = op := by simpa using h
        subst hpo
        exact fun he => hrest_op q hq he.symm
    cases hsr : shouldRetry op with
    | false =>
      have hstep :
          drainLoop attempt (op :: rest) (done ++ op :: rest) succ att =
            drainLoop attempt rest (done ++ rest) succ att := by
        simp only [drainLoop, hsr, Bool.not_false, if_true]
        rw [removeFromQueue_append, removeFromQueue_cons_self,
          removeFromQueue_of_not_mem done op.id hdone_op,
          removeFromQueue_of_not_mem rest op.id hrest_op]
      have hspec : drainStepSpec attempt op = none := by
        simp [drainStepSpec, hsr]
      have hattB : attemptedB op = false := by
        simp [attemptedB, hsr]
      rw [hstep, ih done succ att hdisj' hnd.2]
      simp [List.filterMap_cons, hspec, List.filter_cons, hattB]
    | true =>
      cases htyp : op.type with
      | sync =>
        have hstep :
            drainLoop attempt (op :: rest) (done ++ op :: rest) succ att =
              drainLoop attempt rest ((done ++ [op]) ++ rest) succ att := by
          simp only [drainLoop, hsr, Bool.not_true, if_false, htyp]
          rw [← List.append_cons]
          simp
        have hspec : drainStepSpec attempt op = some op := by
          simp [drainStepSpec, hsr, htyp]
        have hattB : attemptedB op = false := by
          simp [attemptedB, htyp]
        rw [hstep, ih (done ++ [op]) succ att hdisjskip hnd.2]
        simp [List.filterMap_cons, hspec, List.filter_cons, hattB,
          List.append_assoc]
      | save =>
        cases hcol : op.collection with
        | none =>
          have hstep :
              drainLoop attempt (op :: rest) (done ++ op :: rest) succ att =
                drainLoop attempt rest ((done ++ [op]) ++ rest) succ att := by
            simp only [drainLoop, hsr, Bool.not_true, if_false, htyp, hcol]
            rw [← List.append_cons]
            simp
          have hspec : drainStepSpec attempt op = some op := by
            simp [drainStepSpec, hsr, htyp, hcol]
          have hattB : attemptedB op = false := by
            simp [attemptedB, collectionTruthy, hcol]
          rw [hstep, ih (done ++ [op]) succ att hdisjskip hnd.2]
          simp [List.filterMap_cons, hspec, List.filter_cons, hattB,
            List.append_assoc]
        | some c =>
          cases hc : (c == "") with
          | true =>
            have hstep :
                drainLoop attempt (op :: rest) (done ++ op :: rest) succ att
                  = drainLoop attempt rest ((done ++ [op]) ++ rest) succ att
                := by
              simp only [drainLoop, hsr, Bool.not_true, if_false, htyp,
                hcol, hc, if_true]
              rw [← List.append_cons]
              simp
            have hspec : drainStepSpec attempt op = some op := by
              simp [drainStepSpec, hsr, htyp, hcol, hc]
            have hattB : attemptedB op = false := by
              simp [attemptedB, collectionTruthy, hcol, hc]
            rw [hstep, ih (done ++ [op]) succ att hdisjskip hnd.2]
            simp [List.filterMap_cons, hspec, List.filter_cons, hattB,
              List.append_assoc]
          | false =>
            have hattB : attemptedB op = true := by
              simp [attemptedB, hsr, htyp, collectionTruthy, hcol, hc]
            cases hat : attempt c op.data with
            | true =>
              have hstep :
                  drainLoop attempt (op :: rest) (done ++ op :: rest) succ
                    att =
                    drainLoop attempt rest (done ++ rest) (succ + 1)
                      (att ++ [op.id]) := by
                simp only [drainLoop, hsr, Bool.not_true, if_false, htyp,
                  hcol, hc, hat, if_true]
                rw [removeFromQueue_append, removeFromQueue_cons_self,
                  removeFromQueue_of_not_mem done op.id hdone_op,
                  removeFromQueue_of_not_mem rest op.id hrest_op]
                simp
              have hspec : drainStepSpec attempt op = none := by
                simp [drainStepSpec, hsr, htyp, hcol, hc, hat]
              have hattS : attemptSucceeds attempt op = true := by
                simp [attemptSucceeds, hcol, hat]
              rw [hstep, ih done (succ + 1) (att ++ [op.id]) hdisj' hnd.2]
              simp [List.filterMap_cons, hspec, List.filter_cons, hattB,
                hattS, List.append_assoc, Nat.add_assoc, Nat.add_comm,
                Nat.add_left_comm]
            | false =>
              have hstep :
                  drainLoop attempt (op :: rest) (done ++ op :: rest) succ
                    att =
                    drainLoop attempt rest
                      ((done ++ [{ op with retryCount := op.retryCount + 1 }])
                        ++ rest) succ (att ++ [op.id]) := by
                simp only [drainLoop, hsr, Bool.not_true, if_false, htyp,
                  hcol, hc, hat]
                rw [incrementRetryCount_append,
                  incrementRetryCount_cons_self,
                  incrementRetryCount_of_not_mem done op.id hdone_op,
                  incrementRetryCount_of_not_mem rest op.id hrest_op,
                  ← List.append_cons]
                simp [htyp, hcol]
              have hspec : drainStepSpec attempt op =
                  some { op with retryCount := op.retryCount + 1 } := by
                simp [drainStepSpec, hsr, htyp, hcol, hc, hat]
              have hattS : attemptSucceeds attempt op = false := by
                simp [attemptSucceeds, hcol, hat]
              have hdisjbump :
                  ∀ p ∈ done ++ [{ op with retryCount := op.retryCount + 1 }],
                  ∀ q ∈ rest, p.id ≠ q.id := by
                intro p hp q hq
                rcases List.mem_append.mp hp with h | h
                · exact hdisj' p h q hq
                · have hpo : p = { op with retryCount := op.retryCount + 1 }
                    := by simpa using h
                  subst hpo
                  exact fun he => hrest_op q hq he.symm
              rw [hstep]
              rw [ih _ _ _ hdisjbump hnd.2]
              simp [List.filterMap_cons, hspec, List.filter_cons, hattB,
                hattS, List.append_assoc]

theorem processQueue_run (remoteOk : String → List Rec → Bool)
    (queue : List QueuedOperation) (hne : queue ≠ [])
    (hnd : (queue.map (fun op => op.id)).Nodup) :
    processQueue true true false remoteOk queue =
      { queue := queue.filterMap (drainStepSpec remoteOk),
        successCount := (queue.filter
          (fun op => attemptedB op && attemptSucceeds remoteOk op)).length,
        attempts := (queue.filter attemptedB).map (fun op => op.id),
        isProcessingAfter := false } := by
  have hattempt :
      (fun c d => resolves (saveDataInternal true true remoteOk c d)) =
        remoteOk := by
    funext c d
    cases h : remoteOk c d <;> simp [saveDataInternal, resolves, h]
  have hlen : ¬ queue.length = 0 := by
    simpa [List.length_eq_zero] using hne
  have hloop := drainLoop_spec remoteOk queue [] 0 []
    (by intro p hp; cases hp) hnd
  simp only [List.nil_append, Nat.zero_add] at hloop
  simp [processQueue, hlen, hattempt, hloop]

theorem drainStepSpec_id (attempt : String → List Rec → Bool)
    (op x : QueuedOperation) (h : drainStepSpec attempt op = some x) :
    x.id = op.id := by
  unfold drainStepSpec at h
  repeat' split at h
  all_goals cases h
  all_goals rfl

/-- Claim C4: during one drain (connection and principal present, no
drain in flight), queued operations are visited in FIFO order — the
replay attempts are exactly the eligible operations' ids in queue
order — and per operation: retry budget exhausted → removed without a
replay attempt; replay write succeeded → removed and counted as a
success; replay write failed → retry count incremented by one and the
operation stays queued for the next drain. -/
theorem processQueue_fifo_drain (remoteOk : String → List Rec → Bool)
    (queue : List QueuedOperation)
    (hnd : (queue.map (fun op => op.id)).Nodup)
    (op : QueuedOperation) (hop : op ∈ queue) :
    (processQueue true true false remoteOk queue).attempts =
      (queue.filter attemptedB).map (fun o => o.id)
    ∧ (processQueue true true false remoteOk queue).successCount =
      (queue.filter
        (fun o => attemptedB o && attemptSucceeds remoteOk o)).length
    ∧ (shouldRetry op = false →
        op.id ∉ (processQueue true true false remoteOk queue).queue.map
          (fun o => o.id)
        ∧ op.id ∉ (processQueue true true false remoteOk queue).attempts)
    ∧ (attemptedB op = true → attemptSucceeds remoteOk op = true →
        op.id ∉ (processQueue true true false remoteOk queue).queue.map
          (fun o => o.id)
        ∧ op.id ∈ (processQueue true true false remoteOk queue).attempts)
    ∧ (attemptedB op = true → attemptSucceeds remoteOk op = false →
        { op with retryCount := op.retryCount + 1 } ∈
          (processQueue true true false remoteOk queue).queue
        ∧ op.id ∈ (processQueue true true false remoteOk queue).attempts)
    := by
  have hne : queue ≠ [] := List.ne_nil_of_mem hop
  rw [processQueue_run remoteOk queue hne hnd]
  have hnot_queue : ∀ (_ : drainStepSpec remoteOk op = none),
      op.id ∉ (queue.filterMap (drainStepSpec remoteOk)).map
        (fun o => o.id) := by
    intro hspec hmem
    rcases List.mem_map.mp hmem with ⟨x, hx, hxid⟩
    rcases List.mem_filterMap.mp hx with ⟨o2, ho2, hspec2⟩
    have hid : o2.id = op.id := by
      rw [← drainStepSpec_id remoteOk o2 x hspec2, hxid]
    have ho2op : o2 = op := List.inj_on_of_nodup_map hnd ho2 hop hid
    rw [ho2op, hspec] at hspec2
    cases hspec2
  have hnot_att : attemptedB op = false →
      op.id ∉ ((queue.filter attemptedB).map (fun o => o.id)) := by
    intro hfalse hmem
    rcases List.mem_map.mp hmem with ⟨x, hx, hxid⟩
    have hxq := List.mem_filter.mp hx
    have hxop : x = op := List.inj_on_of_nodup_map hnd hxq.1 hop hxid
    have hatt := hxq.2
    rw [hxop, hfalse] at hatt
    simp at hatt
  have hin_att : attemptedB op = true →
      op.id ∈ ((queue.filter attemptedB).map (fun o => o.id)) :=
    fun htrue =>
      List.mem_map.mpr ⟨op, List.mem_filter.mpr ⟨hop, htrue⟩, rfl⟩
  have hdecomp : ∀ (_ : attemptedB op = true),
      shouldRetry op = true ∧ op.type = OpType.save ∧
      ∃ c, op.collection = some c ∧ (c == "") = false := by
    intro h
    simp only [attemptedB, Bool.and_eq_true, beq_iff_eq] at h
    refine ⟨h.1.1, h.1.2, ?_⟩
    rcases hcol : op.collection with _ | c
    · rw [hcol] at h
      simp [collectionTruthy] at h
    · refine ⟨c, rfl, ?_⟩
      have hct := h.2
      rw [hcol] at hct
      simpa [collectionTruthy] using hct
  have hspec_none : attemptedB op = true →
      attemptSucceeds remoteOk op = true →
      drainStepSpec remoteOk op = none := by
    intro h hs
    obtain ⟨hsr, hty, c, hcol, hc⟩ := hdecomp h
    have hat : remoteOk c op.data = true := by
      simpa [attemptSucceeds, hcol] using hs
    simp [drainStepSpec, hsr, hty, hcol, hc, hat]
  have hspec_bump : attemptedB op = true →
      attemptSucceeds remoteOk op = false →
      drainStepSpec remoteOk op =
        some { op with retryCount := op.retryCount + 1 } := by
    intro h hs
    obtain ⟨hsr, hty, c, hcol, hc⟩ := hdecomp h
    have hat : remoteOk c op.data = false := by
      simpa [attemptSucceeds, hcol] using hs
    simp [drainStepSpec, hsr, hty, hcol, hc, hat]
  refine ⟨rfl, rfl, ?_, ?_, ?_⟩
  · intro h
    refine ⟨hnot_queue (by simp [drainStepSpec, h]), ?_⟩
    exact hnot_att (by simp [attemptedB, h])
  · intro h hs
    exact ⟨hnot_queue (hspec_none h hs), hin_att h⟩
  · intro h hs
    refine ⟨?_, hin_att h⟩
    exact List.mem_filterMap.mpr ⟨op, hop, hspec_bump h hs⟩

/-- Sample queue for the C4 witness: one retry-exhausted operation, one
that replays successfully, one that fails its replay. -/
def sampleDrainQueue : List QueuedOperation :=
  [{ id := 1, type := OpType.save, collection := some "x", data := [],
     timestamp := 0, retryCount := 3 },
   { id := 2, type := OpType.save, collection := some "a", data := [],
     timestamp := 0, retryCount := 0 },
   { id := 3, type := OpType.save, collection := some "b", data := [],
     timestamp := 0, retryCount := 1 }]

/-- Witness for C4: under the oracle that only collection "a" writes
succeed, the exhausted op 1 disappears unattempted, op 2 is removed and
attempted, op 3 stays with its retry count bumped to 2. -/
theorem processQueue_fifo_drain_witness :
    ((1 : OpId) ∉ (processQueue true true false (fun c _ => c == "a")
        sampleDrainQueue).queue.map (fun o => o.id)
      ∧ (1 : OpId) ∉ (processQueue true true false (fun c _ => c == "a")
        sampleDrainQueue).attempts)
    ∧ ((2 : OpId) ∉ (processQueue true true false (fun c _ => c == "a")
        sampleDrainQueue).queue.map (fun o => o.id)
      ∧ (2 : OpId) ∈ (processQueue true true false (fun c _ => c == "a")
        sampleDrainQueue).attempts)
    ∧ (({ id := 3, type := OpType.save, collection := some "b", data := [],
          timestamp := 0, retryCount := 2 } : QueuedOperation) ∈
        (processQueue true true false (fun c _ => c == "a")
          sampleDrainQueue).queue
      ∧ (3 : OpId) ∈ (processQueue true true false (fun c _ => c == "a")
        sampleDrainQueue).attempts) :=
  ⟨(processQueue_fifo_drain (fun c _ => c == "a") sampleDrainQueue
      (by decide)
      { id := 1, type := OpType.save, collection := some "x", data := [],
        timestamp := 0, retryCount := 3 } (by decide)).2.2.1 (by decide),
   (processQueue_fifo_drain (fun c _ => c == "a") sampleDrainQueue
      (by decide)
      { id := 2, type := OpType.save, collection := some "a", data := [],
        timestamp := 0, retryCount := 0 } (by decide)).2.2.2.1 (by decide)
      (by decide),
   (processQueue_fifo_drain (fun c _ => c == "a") sampleDrainQueue
      (by decide)
      { id := 3, type := OpType.save, collection := some "b", data := [],
        timestamp := 0, retryCount := 1 } (by decide)).2.2.2.2 (by decide)
      (by decide)⟩

/-- Claim C5: a `processQueue` call made while a drain is in flight
performs no replay attempts and leaves the queue unchanged (a no-op),
and likewise a call with no remote connection, no authenticated
principal, or an empty queue performs no replay attempts. -/
theorem processQueue_reentrancy_guard :
    (∀ hasDb hasUser remoteOk (queue : List QueuedOperation),
        processQueue hasDb hasUser true remoteOk queue =
          { queue := queue, successCount := 0, attempts := [],
            isProcessingAfter := true })
    ∧ (∀ hasUser isP remoteOk (queue : List QueuedOperation),
        processQueue false hasUser isP remoteOk queue =
          { queue := queue, successCount := 0, attempts := [],
            isProcessingAfter := isP })
    ∧ (∀ hasDb isP remoteOk (queue : List QueuedOperation),
        processQueue hasDb false isP remoteOk queue =
          { queue := queue, successCount := 0, attempts := [],
            isProcessingAfter := isP })
    ∧ (∀ remoteOk, processQueue true true false remoteOk [] =
        { queue := [], successCount := 0, attempts := [],
          isProcessingAfter := false }) := by
  refine ⟨?_, ?_, ?_, ?_⟩
  · intro hasDb hasUser remoteOk queue
    simp [processQueue]
  · intro hasUser isP remoteOk queue
    simp [processQueue]
  · intro hasDb isP remoteOk queue
    cases hasDb <;> simp [processQueue]
  · intro remoteOk
    simp [processQueue]

/-- Claim C10: a drain leaves untouched any queued operation whose kind
is not "save" or which has no (truthy) collection name, when its retry
budget is not exhausted: it is not attempted, not removed, and its retry
count is not incremented — the very same record is still queued. -/
theorem processQueue_skips_non_save (remoteOk : String → List Rec → Bool)
    (queue : List QueuedOperation)
    (hnd : (queue.map (fun op => op.id)).Nodup)
    (op : QueuedOperation) (hop : op ∈ queue)
    (hsr : shouldRetry op = true)
    (hskip : op.type ≠ OpType.save ∨
      collectionTruthy op.collection = false) :
    op ∈ (processQueue true true false remoteOk queue).queue
    ∧ op.id ∉ (processQueue true true false remoteOk queue).attempts := by
  have hne : queue ≠ [] := List.ne_nil_of_mem hop
  rw [processQueue_run remoteOk queue hne hnd]
  have hattB : attemptedB op = false := by
    rcases hskip with h | h
    · have hbeq : (op.type == OpType.save) = false := by simpa using h
      simp [attemptedB, hbeq]
    · simp [attemptedB, h]
  have hspec : drainStepSpec remoteOk op = some op := by
    cases hty : op.type with
    | sync => simp [drainStepSpec, hsr, hty]
    | save =>
      have hct : collectionTruthy op.collection = false := by
        rcases hskip with h | h
        · exact absurd hty h
        · exact h
      rcases hcol : op.collection with _ | c
      · simp [drainStepSpec, hsr, hty, hcol]
      · have hc : (c == "") = true := by
          rw [hcol] at hct
          simpa [collectionTruthy] using hct
        simp [drainStepSpec, hsr, hty, hcol, hc]
  constructor
  · exact List.mem_filterMap.mpr ⟨op, hop, hspec⟩
  · intro hmem
    rcases List.mem_map.mp hmem with ⟨x, hx, hxid⟩
    have hxq := List.mem_filter.mp hx
    have hxop : x = op := List.inj_on_of_nodup_map hnd hxq.1 hop hxid
    have hatt := hxq.2
    rw [hxop, hattB] at hatt
    simp at hatt

/-- Witness for C10: a queued whole-state "sync" operation survives a
drain untouched and unattempted. -/
theorem processQueue_skips_non_save_witness :
    ({ id := 1, type := OpType.sync, collection := none, data := [],
       timestamp := 0, retryCount := 0 } : QueuedOperation) ∈
      (processQueue true true false (fun _ _ => true)
        [{ id := 1, type := OpType.sync, collection := none, data := [],
           timestamp := 0, retryCount := 0 }]).queue
    ∧ (1 : OpId) ∉
      (processQueue true true false (fun _ _ => true)
        [{ id := 1, type := OpType.sync, collection := none, data := [],
           timestamp := 0, retryCount := 0 }]).attempts :=
  processQueue_skips_non_save (fun _ _ => true)
    [{ id := 1, type := OpType.sync, collection := none, data := [],
       timestamp := 0, retryCount := 0 }] (by decide)
    { id := 1, type := OpType.sync, collection := none, data := [],
      timestamp := 0, retryCount := 0 } (by decide) (by decide)
    (Or.inl (by decide))

end WyrdLedger
